import Mathlib

/-
  Verification of the Slicer25 grid partitioner (src/Slicer25.js).

  The module partitions a surface of size xsize by ysize into a 5 by 5 grid of
  25 inclusive pixel ranges (row-major, 1-based), derives named composite
  metazones by bounding-box union, and answers two queries: whichSlice and is.

  Numbers are modelled exactly: surface sizes and percentages as integers,
  query coordinates as rationals, with JavaScript Math.round modelled as
  floor(q + 1/2).  The external literals object read by the source
  (lit.num.zero = 0, lit.num.one = 1, lit.num.five = 5,
  lit.num.onehundred = 100, and the axis tags lit.x, lit.y) is not part of
  this repository; its values are fixed by its member names and by the
  round(percent/100 * dimension) formula of the specification, and are
  inlined below (the axis tags become the Dim type).  The environment
  fallback getFallbackWidth/getFallbackHeight (window.innerWidth) is an
  external collaborator and is not modelled: every claim supplies explicit
  dimensions.
-/

/-- Inclusive rectangular pixel range, as built by
Slicer25._getScreenRangeFromXYPercent and Slicer25._getMergedRange. -/
structure Range where
  xstart : ℤ
  xstop : ℤ
  ystart : ℤ
  ystop : ℤ
deriving DecidableEq, Inhabited, Repr

/-- JavaScript Math.round: floor(q + 1/2), halves rounding toward positive
infinity. -/
def jsRound (q : ℚ) : ℤ := ⌊q + 1/2⌋

/-- Axis selector passed to getPercentOfScreenAsPixels (the tags lit.x and
lit.y of the external literals object). -/
inductive Dim where
  | x
  | y
deriving DecidableEq

/-- Slicer25._getPercentOfScreenAsPixels: dim * (pct/100) for the selected
axis size. -/
def getPercentOfScreenAsPixels (xsize ysize : ℤ) (pct : ℤ) (whichDim : Dim) : ℚ :=
  (match whichDim with
    | Dim.x => (xsize : ℚ)
    | Dim.y => (ysize : ℚ)) * ((pct : ℚ) / 100)

/-- Slicer25._getScreenRangeFromXYPercent: one cell at the current cursor. -/
def getScreenRangeFromXYPercent (xsize ysize : ℤ) (xpct ypct : ℤ)
    (xoffset yoffset : ℤ) : Range :=
  let xpx := jsRound (getPercentOfScreenAsPixels xsize ysize xpct Dim.x)
  let ypx := jsRound (getPercentOfScreenAsPixels xsize ysize ypct Dim.y)
  { xstart := xoffset, xstop := xoffset + xpx - 1,
    ystart := yoffset, ystop := yoffset + ypx - 1 }

/-- The per-cell percent table of Slicer25.sliceScreen with
p = (b: 15, z: 34, m: 2); the JS array is 1-based with a null head, modelled
as the plain 25-element list. -/
def sizes : List (ℤ × ℤ) := [
  (15,15),(34,15),(2,15),(34,15),(15,15),
  (15,34),(34,34),(2,34),(34,34),(15,34),
  (15,2),(34,2),(2,2),(34,2),(15,2),
  (15,34),(34,34),(2,34),(34,34),(15,34),
  (15,15),(34,15),(2,15),(34,15),(15,15)]

/-- The loop of Slicer25.sliceScreen: build the cell for each entry of sizes,
advance the cursor from the UNCLAMPED cell (the source updates the offsets
before the ystop correction of the same iteration), then store the cell with
the ystop correction applied. -/
def sliceLoop (xsize ysize : ℤ) : List (ℤ × ℤ) → ℤ → ℤ → ℕ → List Range
  | [], _, _, _ => []
  | sz :: rest, xoffset, yoffset, i =>
    let r := getScreenRangeFromXYPercent xsize ysize sz.1 sz.2 xoffset yoffset
    let xoffset' := if i % 5 = 0 then 0 else r.xstop + 1
    let yoffset' := if i % 5 = 0 then r.ystop + 1 else yoffset
    let stored := if r.ystop = ysize then { r with ystop := r.ystop - 1 } else r
    stored :: sliceLoop xsize ysize rest xoffset' yoffset' (i + 1)

/-- Slicer25.sliceScreen. -/
def sliceScreen (xsize ysize : ℤ) : List Range := sliceLoop xsize ysize sizes 0 0 1

/-- The 1-based slice accessor this.slices[i] (index 0 of the JS array is
null and never matches the scan). -/
def sliceGet (xsize ysize : ℤ) (i : ℕ) : Range :=
  (sliceScreen xsize ysize).getD (i - 1) default

/-- The containment test of Slicer25.whichSlice for one slice: all four
bounds inclusive. -/
def containsInt (r : Range) (x y : ℤ) : Bool :=
  decide (r.xstart ≤ x ∧ x ≤ r.xstop ∧ r.ystart ≤ y ∧ y ≤ r.ystop)

/-- The scan loop of Slicer25.whichSlice: indices counted from i, first hit
wins, fall-through yields none (JS: the function returns undefined). -/
def whichSliceLoop (slices : List Range) (x y : ℤ) (i : ℕ) : Option ℕ :=
  match slices with
  | [] => none
  | r :: rest =>
    if containsInt r x y then some i else whichSliceLoop rest x y (i + 1)

/-- Slicer25.whichSlice: round both coordinates with Math.round, then scan
slices 1..25 in ascending order. -/
def whichSlice (xsize ysize : ℤ) (x y : ℚ) : Option ℕ :=
  whichSliceLoop (sliceScreen xsize ysize) (jsRound x) (jsRound y) 1

/-- One minimum update of Slicer25._getMergedRange; none models the null
initial accumulator. -/
def mergeMin (acc : Option ℤ) (v : ℤ) : Option ℤ :=
  match acc with
  | none => some v
  | some m => if v < m then some v else some m

/-- One maximum update of Slicer25._getMergedRange. -/
def mergeMax (acc : Option ℤ) (v : ℤ) : Option ℤ :=
  match acc with
  | none => some v
  | some m => if v > m then some v else some m

/-- Slicer25._getMergedRange: fold the four min/max updates over the ranges.
Every call site passes a non-empty list, so the accumulators are always some
at the end; the empty-list case (null fields in JS) is rendered by getD 0 and
is never exercised. -/
def getMergedRange (ranges : List Range) : Range :=
  let acc := ranges.foldl
    (fun (a : Option ℤ × Option ℤ × Option ℤ × Option ℤ) r =>
      (mergeMin a.1 r.xstart, mergeMax a.2.1 r.xstop,
       mergeMin a.2.2.1 r.ystart, mergeMax a.2.2.2 r.ystop))
    (none, none, none, none)
  { xstart := acc.1.getD 0, xstop := acc.2.1.getD 0,
    ystart := acc.2.2.1.getD 0, ystop := acc.2.2.2.getD 0 }

/-- A value found by the property lookup this.meta[metaName]: the merged
entries are plain Range objects; the single-cell entries are stored by the
source as one-element ARRAYS (for example ret.center = [s[13]]), and reading
.xstart, .xstop, .ystart, .ystop from such an array yields undefined; and
because this.meta is a plain object literal, a lookup with a name that is
not an own key still finds the members inherited from Object.prototype
(functions such as toString, or the accessor giving the prototype object),
whose four bounds likewise read back undefined. -/
inductive MetaVal where
  | range (r : Range)
  | wrapped (r : Range)
  | inherited
deriving DecidableEq, Repr

/-- Slicer25.buildMeta together with the property-lookup semantics of
this.meta[name]: the 19 own keys of this.meta carry the exact slice-index
lists of the source (note that h_mid merges slices 15,16,17,18,19,20 and
that left, right, top, bottom merge only two columns/rows each); a name that
is not an own key but is a property of Object.prototype (the seven standard
members constructor, hasOwnProperty, isPrototypeOf, propertyIsEnumerable,
toLocaleString, toString, valueOf, plus the legacy web members
__proto__, __defineGetter__, __defineSetter__, __lookupGetter__,
__lookupSetter__) is found on the prototype chain and yields the inherited
member; every other name gives none (JS: undefined). -/
def buildMeta (xsize ysize : ℤ) (name : String) : Option MetaVal :=
  let s := sliceGet xsize ysize
  match name with
  | "left" => some (.range (getMergedRange
      [s 1, s 2, s 6, s 7, s 11, s 12, s 16, s 17, s 21, s 22]))
  | "right" => some (.range (getMergedRange
      [s 4, s 5, s 9, s 10, s 14, s 15, s 19, s 20, s 24, s 25]))
  | "top" => some (.range (getMergedRange
      [s 1, s 2, s 3, s 4, s 5, s 6, s 7, s 8, s 9, s 10]))
  | "bottom" => some (.range (getMergedRange
      [s 16, s 17, s 18, s 19, s 20, s 21, s 22, s 23, s 24, s 25]))
  | "l_border" => some (.range (getMergedRange [s 1, s 6, s 11, s 16, s 21]))
  | "r_border" => some (.range (getMergedRange [s 5, s 10, s 15, s 20, s 25]))
  | "t_border" => some (.range (getMergedRange [s 1, s 2, s 3, s 4, s 5]))
  | "b_border" => some (.range (getMergedRange [s 21, s 22, s 23, s 24, s 25]))
  | "lt_corner" => some (.wrapped (s 1))
  | "rt_corner" => some (.wrapped (s 5))
  | "lb_corner" => some (.wrapped (s 21))
  | "rb_corner" => some (.wrapped (s 25))
  | "lt_zone" => some (.wrapped (s 7))
  | "rt_zone" => some (.wrapped (s 9))
  | "lb_zone" => some (.wrapped (s 17))
  | "rb_zone" => some (.wrapped (s 19))
  | "center" => some (.wrapped (s 13))
  | "h_mid" => some (.range (getMergedRange
      [s 15, s 16, s 17, s 18, s 19, s 20]))
  | "v_mid" => some (.range (getMergedRange [s 3, s 8, s 13, s 18, s 23]))
  | "constructor" => some .inherited
  | "hasOwnProperty" => some .inherited
  | "isPrototypeOf" => some .inherited
  | "propertyIsEnumerable" => some .inherited
  | "toLocaleString" => some .inherited
  | "toString" => some .inherited
  | "valueOf" => some .inherited
  | "__proto__" => some .inherited
  | "__defineGetter__" => some .inherited
  | "__defineSetter__" => some .inherited
  | "__lookupGetter__" => some .inherited
  | "__lookupSetter__" => some .inherited
  | _ => none

/-- The JavaScript error raised when a property is read from undefined. -/
def typeErrorUndefined : String := "TypeError: cannot read property of undefined"

/-- Slicer25.is: look this.meta[metaName] up.  A name found neither among
the own keys nor on the prototype chain is undefined and reading .xstart
from it throws (the error case).  An array-valued entry and an inherited
Object.prototype member both have undefined bounds and every numeric
comparison against undefined is false, so the result is false.  A
Range-valued entry is an exact inclusive bounds test on the UNROUNDED
coordinates. -/
def is (xsize ysize : ℤ) (metaName : String) (x y : ℚ) : Except String Bool :=
  match buildMeta xsize ysize metaName with
  | none => .error typeErrorUndefined
  | some (.wrapped _) => .ok false
  | some .inherited => .ok false
  | some (.range r) =>
    .ok (decide (x ≥ (r.xstart : ℚ) ∧ x ≤ (r.xstop : ℚ) ∧
                 y ≥ (r.ystart : ℚ) ∧ y ≤ (r.ystop : ℚ)))

/-- Observer for the error case of is. -/
def isError (e : Except String Bool) : Bool :=
  match e with
  | .error _ => true
  | .ok _ => false

/-- The 19 metazone names, in this.meta declaration order. -/
def metaNameList : List String :=
  ["left", "right", "bottom", "top",
   "l_border", "r_border", "b_border", "t_border",
   "lb_corner", "rb_corner", "lt_corner", "rt_corner",
   "lb_zone", "rb_zone", "lt_zone", "rt_zone",
   "center", "h_mid", "v_mid"]

/-- The property names a plain object literal inherits from
Object.prototype (standard members plus the legacy web accessors), found by
this.meta[name] when name is not an own key. -/
def protoNameList : List String :=
  ["constructor", "hasOwnProperty", "isPrototypeOf", "propertyIsEnumerable",
   "toLocaleString", "toString", "valueOf", "__proto__",
   "__defineGetter__", "__defineSetter__", "__lookupGetter__",
   "__lookupSetter__"]

/- Specification-side definitions, used only to state and compare against the
behaviour the specification describes. -/

/-- Specification-side raw grid: the same loop as sliceScreen but storing the
cell WITHOUT the ystop boundary correction of spec section 4.1 step 5. -/
def sliceLoopRaw (xsize ysize : ℤ) : List (ℤ × ℤ) → ℤ → ℤ → ℕ → List Range
  | [], _, _, _ => []
  | sz :: rest, xoffset, yoffset, i =>
    let r := getScreenRangeFromXYPercent xsize ysize sz.1 sz.2 xoffset yoffset
    let xoffset' := if i % 5 = 0 then 0 else r.xstop + 1
    let yoffset' := if i % 5 = 0 then r.ystop + 1 else yoffset
    r :: sliceLoopRaw xsize ysize rest xoffset' yoffset' (i + 1)

/-- Specification-side raw partition (no boundary correction). -/
def sliceScreenRaw (xsize ysize : ℤ) : List Range :=
  sliceLoopRaw xsize ysize sizes 0 0 1

/-- The ystop boundary correction of spec section 4.1 step 5 as a standalone
per-cell map. -/
def clampY (ysize : ℤ) (r : Range) : Range :=
  if r.ystop = ysize then { r with ystop := r.ystop - 1 } else r

/-- Specification-side pixel extent of one percent cell:
round(percent/100 * dimension), spec section 4.1 step 3. -/
def pxExtent (dim pct : ℤ) : ℤ :=
  jsRound (getPercentOfScreenAsPixels dim dim pct Dim.x)

/-- The column/row percent pattern border, zone, mid, zone, border of the
spec. -/
def gridPct : ℕ → ℤ
  | 0 => 15
  | 1 => 34
  | 2 => 2
  | 3 => 34
  | _ => 15

/-- Specification-side cursor positions: prefix sums of the pixel extents
along one axis. -/
def specX (dim : ℤ) : ℕ → ℤ
  | 0 => 0
  | n + 1 => specX dim n + pxExtent dim (gridPct n)

/-- Specification-side cell (0-based k, row k/5, column k%5): the range
formula of spec section 4.1 step 3 with the ystop correction of step 5
applied to the stored cell. -/
def specSlice (xsize ysize : ℤ) (k : ℕ) : Range :=
  let c := k % 5
  let r := k / 5
  let stop := specX ysize (r + 1) - 1
  { xstart := specX xsize c, xstop := specX xsize (c + 1) - 1,
    ystart := specX ysize r, ystop := if stop = ysize then stop - 1 else stop }

/-- Corrected composition and span property of the four large metazones,
stated for one instance: left and right are the bounding-box unions of the
slices in columns one-two and four-five respectively (top, bottom the rows
alike), left ends exactly where the column-3 band (represented by the center
slice 13) starts, right starts right after it, the two reach the top and
bottom edges up to the rounding margin, and the analogous facts hold
vertically; the column-3/row-3 gap band is nonempty. -/
def C3Spec (xsize ysize : ℤ) : Prop :=
  ∃ lr rr tr br : Range,
    buildMeta xsize ysize ("left") = some (MetaVal.range lr) ∧
    buildMeta xsize ysize ("right") = some (MetaVal.range rr) ∧
    buildMeta xsize ysize ("top") = some (MetaVal.range tr) ∧
    buildMeta xsize ysize ("bottom") = some (MetaVal.range br) ∧
    lr = getMergedRange [sliceGet xsize ysize 1, sliceGet xsize ysize 2,
      sliceGet xsize ysize 6, sliceGet xsize ysize 7, sliceGet xsize ysize 11,
      sliceGet xsize ysize 12, sliceGet xsize ysize 16, sliceGet xsize ysize 17,
      sliceGet xsize ysize 21, sliceGet xsize ysize 22] ∧
    rr = getMergedRange [sliceGet xsize ysize 4, sliceGet xsize ysize 5,
      sliceGet xsize ysize 9, sliceGet xsize ysize 10, sliceGet xsize ysize 14,
      sliceGet xsize ysize 15, sliceGet xsize ysize 19, sliceGet xsize ysize 20,
      sliceGet xsize ysize 24, sliceGet xsize ysize 25] ∧
    tr = getMergedRange [sliceGet xsize ysize 1, sliceGet xsize ysize 2,
      sliceGet xsize ysize 3, sliceGet xsize ysize 4, sliceGet xsize ysize 5,
      sliceGet xsize ysize 6, sliceGet xsize ysize 7, sliceGet xsize ysize 8,
      sliceGet xsize ysize 9, sliceGet xsize ysize 10] ∧
    br = getMergedRange [sliceGet xsize ysize 16, sliceGet xsize ysize 17,
      sliceGet xsize ysize 18, sliceGet xsize ysize 19, sliceGet xsize ysize 20,
      sliceGet xsize ysize 21, sliceGet xsize ysize 22, sliceGet xsize ysize 23,
      sliceGet xsize ysize 24, sliceGet xsize ysize 25] ∧
    lr.xstart = 0 ∧
    lr.xstop + 1 = (sliceGet xsize ysize 13).xstart ∧
    (sliceGet xsize ysize 13).xstop + 1 = rr.xstart ∧
    xsize - 3 ≤ rr.xstop ∧
    lr.ystart = 0 ∧
    ysize - 3 ≤ lr.ystop ∧
    rr.ystart = 0 ∧
    ysize - 3 ≤ rr.ystop ∧
    tr.ystart = 0 ∧
    tr.ystop + 1 = (sliceGet xsize ysize 13).ystart ∧
    (sliceGet xsize ysize 13).ystop + 1 = br.ystart ∧
    ysize - 3 ≤ br.ystop ∧
    tr.xstart = 0 ∧
    xsize - 3 ≤ tr.xstop ∧
    br.xstart = 0 ∧
    xsize - 3 ≤ br.xstop ∧
    (sliceGet xsize ysize 13).xstart ≤ (sliceGet xsize ysize 13).xstop ∧
    (sliceGet xsize ysize 13).ystart ≤ (sliceGet xsize ysize 13).ystop

/- Helper lemmas. -/

/-- The grid loop agrees with the closed form: slice k+1 sits at column k%5
and row k/5 of the prefix-sum cursor table, with the ystop correction. -/
theorem sliceScreen_eq_spec (xsize ysize : ℤ) :
    sliceScreen xsize ysize = (List.range 25).map (specSlice xsize ysize) := by
  have hr : List.range 25 =
      [0,1,2,3,4,5,6,7,8,9,10,11,12,13,14,15,16,17,18,19,20,21,22,23,24] := rfl
  rw [hr]
  simp only [List.map, sliceScreen, sliceLoop, sizes, getScreenRangeFromXYPercent,
    getPercentOfScreenAsPixels, specSlice, specX, gridPct, pxExtent, jsRound]
  norm_num [List.cons.injEq, Range.mk.injEq]
  split_ifs <;> and_intros <;> rfl

/-- Integer bounds for the rounded pixel extent of a percent cell. -/
theorem pxExtent_bounds (d pct : ℤ) :
    200 * pxExtent d pct ≤ 2 * d * pct + 100 ∧
      2 * d * pct + 100 < 200 * pxExtent d pct + 200 := by
  have e : pxExtent d pct = ⌊(d : ℚ) * ((pct : ℚ) / 100) + 1 / 2⌋ := rfl
  have h1 : ((⌊(d : ℚ) * ((pct : ℚ) / 100) + 1 / 2⌋ : ℤ) : ℚ) ≤
      (d : ℚ) * ((pct : ℚ) / 100) + 1 / 2 := Int.floor_le _
  have h2 : (d : ℚ) * ((pct : ℚ) / 100) + 1 / 2 <
      ((⌊(d : ℚ) * ((pct : ℚ) / 100) + 1 / 2⌋ : ℤ) : ℚ) + 1 := Int.lt_floor_add_one _
  constructor
  · have g : ((200 * pxExtent d pct : ℤ) : ℚ) ≤ ((2 * d * pct + 100 : ℤ) : ℚ) := by
      rw [e]; push_cast; linarith
    exact_mod_cast g
  · have g : ((2 * d * pct + 100 : ℤ) : ℚ) < ((200 * pxExtent d pct + 200 : ℤ) : ℚ) := by
      rw [e]; push_cast; linarith
    exact_mod_cast g

/-- The six cursor positions along one axis, written out. -/
theorem specX_vals (d : ℤ) :
    specX d 0 = 0 ∧ specX d 1 = pxExtent d 15 ∧
      specX d 2 = pxExtent d 15 + pxExtent d 34 ∧
      specX d 3 = pxExtent d 15 + pxExtent d 34 + pxExtent d 2 ∧
      specX d 4 = pxExtent d 15 + pxExtent d 34 + pxExtent d 2 + pxExtent d 34 ∧
      specX d 5 = pxExtent d 15 + pxExtent d 34 + pxExtent d 2 + pxExtent d 34 +
        pxExtent d 15 := by
  have h0 : specX d 0 = 0 := rfl
  have h1 : specX d 1 = specX d 0 + pxExtent d 15 := rfl
  have h2 : specX d 2 = specX d 1 + pxExtent d 34 := rfl
  have h3 : specX d 3 = specX d 2 + pxExtent d 2 := rfl
  have h4 : specX d 4 = specX d 3 + pxExtent d 34 := rfl
  have h5 : specX d 5 = specX d 4 + pxExtent d 15 := rfl
  omega

/-- Head case of getD on a cons cell. -/
theorem rangeGetD_zero (a : Range) (t : List Range) (d : Range) :
    (a :: t).getD 0 d = a := rfl

/-- Tail case of getD on a cons cell. -/
theorem rangeGetD_succ (a : Range) (t : List Range) (n : ℕ) (d : Range) :
    (a :: t).getD (n + 1) d = t.getD n d := rfl

/-- The grid always holds exactly 25 cells. -/
theorem sliceScreen_length (xsize ysize : ℤ) :
    (sliceScreen xsize ysize).length = 25 := by
  rw [sliceScreen_eq_spec]; simp

/-- Positional access into the grid, through the closed form. -/
theorem sliceScreen_getD (xsize ysize : ℤ) (k : ℕ) (hk : k < 25) :
    (sliceScreen xsize ysize).getD k default = specSlice xsize ysize k := by
  rw [sliceScreen_eq_spec]
  rw [List.getD_eq_getElem _ _ (by simpa using hk)]
  simp [hk]

/-- One-based access into the grid, through the closed form. -/
theorem sliceGet_eq_spec (xsize ysize : ℤ) (i : ℕ) (h1 : 1 ≤ i) (h2 : i ≤ 25) :
    sliceGet xsize ysize i = specSlice xsize ysize (i - 1) := by
  unfold sliceGet
  exact sliceScreen_getD xsize ysize (i - 1) (by omega)

/-- The scan returns base + k when cell k matches and no earlier cell does. -/
theorem whichSliceLoop_eq_some (x y : ℤ) :
    ∀ (l : List Range) (b k : ℕ), k < l.length →
      containsInt (l.getD k default) x y = true →
      (∀ j, j < k → containsInt (l.getD j default) x y = false) →
      whichSliceLoop l x y b = some (b + k) := by
  intro l
  induction l with
  | nil => intro b k hk; simp at hk
  | cons a t ih =>
    intro b k hk hc hmin
    match k with
    | 0 =>
      rw [rangeGetD_zero] at hc
      unfold whichSliceLoop
      rw [if_pos hc]
      simp
    | n + 1 =>
      have h0 : containsInt a x y = false := by
        have := hmin 0 (Nat.succ_pos n)
        rwa [rangeGetD_zero] at this
      unfold whichSliceLoop
      rw [if_neg (by simp [h0])]
      have hrec := ih (b + 1) n (by simpa using hk)
        (by rwa [rangeGetD_succ] at hc)
        (fun j hj => by
          have := hmin (j + 1) (by omega)
          rwa [rangeGetD_succ] at this)
      rw [hrec]
      congr 1
      omega

/-- The scan returns none when no cell matches. -/
theorem whichSliceLoop_eq_none (x y : ℤ) :
    ∀ (l : List Range) (b : ℕ),
      (∀ j, j < l.length → containsInt (l.getD j default) x y = false) →
      whichSliceLoop l x y b = none := by
  intro l
  induction l with
  | nil => intros; rfl
  | cons a t ih =>
    intro b hall
    have h0 : containsInt a x y = false := by
      have := hall 0 (by simp)
      rwa [rangeGetD_zero] at this
    unfold whichSliceLoop
    rw [if_neg (by simp [h0])]
    exact ih (b + 1) (fun j hj => by
      have := hall (j + 1) (by simpa using Nat.succ_lt_succ hj)
      rwa [rangeGetD_succ] at this)

/-- Inversion for a successful scan: the hit is in range, matches, and all
earlier cells fail. -/
theorem whichSliceLoop_some_inv (x y : ℤ) :
    ∀ (l : List Range) (b k : ℕ), whichSliceLoop l x y b = some k →
      b ≤ k ∧ k - b < l.length ∧
        containsInt (l.getD (k - b) default) x y = true ∧
        ∀ j, j < k - b → containsInt (l.getD j default) x y = false := by
  intro l
  induction l with
  | nil => intro b k h; simp [whichSliceLoop] at h
  | cons a t ih =>
    intro b k h
    unfold whichSliceLoop at h
    by_cases hc : containsInt a x y = true
    · rw [if_pos hc] at h
      have hk : k = b := by
        have := Option.some.inj h
        omega
      subst hk
      refine ⟨le_refl _, by simp, ?_, ?_⟩
      · simpa [rangeGetD_zero] using hc
      · intro j hj; omega
    · rw [if_neg hc] at h
      obtain ⟨hb, hlen, hcon, hmin⟩ := ih (b + 1) k h
      refine ⟨by omega, ?_, ?_, ?_⟩
      · simp only [List.length_cons]; omega
      · have : k - b = (k - (b + 1)) + 1 := by omega
        rw [this, rangeGetD_succ]
        exact hcon
      · intro j hj
        match j with
        | 0 =>
          rw [rangeGetD_zero]
          exact Bool.not_eq_true _ ▸ (by simpa using hc)
        | n + 1 =>
          rw [rangeGetD_succ]
          exact hmin n (by omega)

/-- Inversion for a failed scan: every cell fails. -/
theorem whichSliceLoop_none_inv (x y : ℤ) :
    ∀ (l : List Range) (b : ℕ), whichSliceLoop l x y b = none →
      ∀ j, j < l.length → containsInt (l.getD j default) x y = false := by
  intro l
  induction l with
  | nil => intro b _ j hj; simp at hj
  | cons a t ih =>
    intro b h j hj
    unfold whichSliceLoop at h
    by_cases hc : containsInt a x y = true
    · rw [if_pos hc] at h; exact absurd h (by simp)
    · rw [if_neg hc] at h
      match j with
      | 0 => rw [rangeGetD_zero]; simpa using hc
      | n + 1 =>
        rw [rangeGetD_succ]
        exact ih (b + 1) h n (by simpa using hj)

/-- The stored grid is the raw grid with the ystop correction mapped over it:
the loop reads the offsets from the uncorrected cell, so correction and
cursor commute in this way. -/
theorem sliceLoop_eq_raw (xsize ysize : ℤ) :
    ∀ (l : List (ℤ × ℤ)) (xo yo : ℤ) (i : ℕ),
      sliceLoop xsize ysize l xo yo i =
        (sliceLoopRaw xsize ysize l xo yo i).map (clampY ysize) := by
  intro l
  induction l with
  | nil => intros; rfl
  | cons a t ih =>
    intro xo yo i
    simp only [sliceLoop, sliceLoopRaw, List.map, clampY]
    rw [ih]

/-- The partition equals the uncorrected partition with the boundary
correction applied cell by cell. -/
theorem sliceScreen_raw_clamp (xsize ysize : ℤ) :
    sliceScreen xsize ysize = (sliceScreenRaw xsize ysize).map (clampY ysize) :=
  sliceLoop_eq_raw xsize ysize sizes 0 0 1

/-- The accumulator update is a minimum once initialised. -/
theorem mergeMin_some (m v : ℤ) : mergeMin (some m) v = some (min v m) := by
  show (if v < m then some v else some m) = some (min v m)
  split_ifs with h
  · rw [min_eq_left h.le]
  · rw [min_eq_right (by omega)]

/-- The accumulator update is a maximum once initialised. -/
theorem mergeMax_some (m v : ℤ) : mergeMax (some m) v = some (max v m) := by
  show (if v > m then some v else some m) = some (max v m)
  split_ifs with h
  · rw [max_eq_left h.le]
  · rw [max_eq_right (by omega)]

/-- Math.round is the identity on integers. -/
theorem jsRound_intCast (n : ℤ) : jsRound (n : ℚ) = n := by
  unfold jsRound
  rw [Int.floor_eq_iff]
  constructor <;> linarith

/-- Evaluation rule for a pixel extent at concrete inputs. -/
theorem pxExtent_eval (d pct n : ℤ)
    (h1 : (n : ℚ) ≤ (d : ℚ) * ((pct : ℚ) / 100) + 1 / 2)
    (h2 : (d : ℚ) * ((pct : ℚ) / 100) + 1 / 2 < (n : ℚ) + 1) :
    pxExtent d pct = n := by
  show ⌊(d : ℚ) * ((pct : ℚ) / 100) + 1 / 2⌋ = n
  rw [Int.floor_eq_iff]
  exact ⟨h1, h2⟩

theorem pxExtent_1000_15 : pxExtent 1000 15 = 150 :=
  pxExtent_eval 1000 15 150 (by norm_num) (by norm_num)

theorem pxExtent_1000_34 : pxExtent 1000 34 = 340 :=
  pxExtent_eval 1000 34 340 (by norm_num) (by norm_num)

theorem pxExtent_1000_2 : pxExtent 1000 2 = 20 :=
  pxExtent_eval 1000 2 20 (by norm_num) (by norm_num)

theorem pxExtent_111_15 : pxExtent 111 15 = 17 :=
  pxExtent_eval 111 15 17 (by norm_num) (by norm_num)

theorem pxExtent_111_34 : pxExtent 111 34 = 38 :=
  pxExtent_eval 111 34 38 (by norm_num) (by norm_num)

theorem pxExtent_111_2 : pxExtent 111 2 = 2 :=
  pxExtent_eval 111 2 2 (by norm_num) (by norm_num)

theorem pxExtent_1_15 : pxExtent 1 15 = 0 :=
  pxExtent_eval 1 15 0 (by norm_num) (by norm_num)

theorem pxExtent_1_34 : pxExtent 1 34 = 0 :=
  pxExtent_eval 1 34 0 (by norm_num) (by norm_num)

theorem pxExtent_1_2 : pxExtent 1 2 = 0 :=
  pxExtent_eval 1 2 0 (by norm_num) (by norm_num)

/-- The 1000 by 1000 grid, fully evaluated. -/
theorem sliceScreen_1000 : sliceScreen 1000 1000 = [
    ⟨0,149,0,149⟩, ⟨150,489,0,149⟩, ⟨490,509,0,149⟩, ⟨510,849,0,149⟩, ⟨850,999,0,149⟩,
    ⟨0,149,150,489⟩, ⟨150,489,150,489⟩, ⟨490,509,150,489⟩, ⟨510,849,150,489⟩, ⟨850,999,150,489⟩,
    ⟨0,149,490,509⟩, ⟨150,489,490,509⟩, ⟨490,509,490,509⟩, ⟨510,849,490,509⟩, ⟨850,999,490,509⟩,
    ⟨0,149,510,849⟩, ⟨150,489,510,849⟩, ⟨490,509,510,849⟩, ⟨510,849,510,849⟩, ⟨850,999,510,849⟩,
    ⟨0,149,850,999⟩, ⟨150,489,850,999⟩, ⟨490,509,850,999⟩, ⟨510,849,850,999⟩, ⟨850,999,850,999⟩] := by
  rw [sliceScreen_eq_spec]
  obtain ⟨x0, x1, x2, x3, x4, x5⟩ := specX_vals (1000 : ℤ)
  simp only [pxExtent_1000_15, pxExtent_1000_34, pxExtent_1000_2] at x1 x2 x3 x4 x5
  rw [show List.range 25 =
    [0,1,2,3,4,5,6,7,8,9,10,11,12,13,14,15,16,17,18,19,20,21,22,23,24] from rfl]
  simp only [List.map]
  norm_num [specSlice, x0, x1, x2, x3, x4, x5]

/-- The 111 by 111 grid, fully evaluated: the rounded extents sum to 112, the
last column protrudes to xstop 111 uncorrected, and the last row is clamped
from 111 to 110. -/
theorem sliceScreen_111 : sliceScreen 111 111 = [
    ⟨0,16,0,16⟩, ⟨17,54,0,16⟩, ⟨55,56,0,16⟩, ⟨57,94,0,16⟩, ⟨95,111,0,16⟩,
    ⟨0,16,17,54⟩, ⟨17,54,17,54⟩, ⟨55,56,17,54⟩, ⟨57,94,17,54⟩, ⟨95,111,17,54⟩,
    ⟨0,16,55,56⟩, ⟨17,54,55,56⟩, ⟨55,56,55,56⟩, ⟨57,94,55,56⟩, ⟨95,111,55,56⟩,
    ⟨0,16,57,94⟩, ⟨17,54,57,94⟩, ⟨55,56,57,94⟩, ⟨57,94,57,94⟩, ⟨95,111,57,94⟩,
    ⟨0,16,95,110⟩, ⟨17,54,95,110⟩, ⟨55,56,95,110⟩, ⟨57,94,95,110⟩, ⟨95,111,95,110⟩] := by
  rw [sliceScreen_eq_spec]
  obtain ⟨x0, x1, x2, x3, x4, x5⟩ := specX_vals (111 : ℤ)
  simp only [pxExtent_111_15, pxExtent_111_34, pxExtent_111_2] at x1 x2 x3 x4 x5
  rw [show List.range 25 =
    [0,1,2,3,4,5,6,7,8,9,10,11,12,13,14,15,16,17,18,19,20,21,22,23,24] from rfl]
  simp only [List.map]
  norm_num [specSlice, x0, x1, x2, x3, x4, x5]

/-- The degenerate 1 by 1 grid: every rounded extent is 0, so all 25 cells
are empty ranges. -/
theorem sliceScreen_one : sliceScreen 1 1 = List.replicate 25 ⟨0,-1,0,-1⟩ := by
  rw [sliceScreen_eq_spec]
  obtain ⟨x0, x1, x2, x3, x4, x5⟩ := specX_vals (1 : ℤ)
  simp only [pxExtent_1_15, pxExtent_1_34, pxExtent_1_2] at x1 x2 x3 x4 x5
  rw [show List.range 25 =
    [0,1,2,3,4,5,6,7,8,9,10,11,12,13,14,15,16,17,18,19,20,21,22,23,24] from rfl]
  rw [show List.replicate 25 (⟨0,-1,0,-1⟩ : Range) =
    [⟨0,-1,0,-1⟩, ⟨0,-1,0,-1⟩, ⟨0,-1,0,-1⟩, ⟨0,-1,0,-1⟩, ⟨0,-1,0,-1⟩,
     ⟨0,-1,0,-1⟩, ⟨0,-1,0,-1⟩, ⟨0,-1,0,-1⟩, ⟨0,-1,0,-1⟩, ⟨0,-1,0,-1⟩,
     ⟨0,-1,0,-1⟩, ⟨0,-1,0,-1⟩, ⟨0,-1,0,-1⟩, ⟨0,-1,0,-1⟩, ⟨0,-1,0,-1⟩,
     ⟨0,-1,0,-1⟩, ⟨0,-1,0,-1⟩, ⟨0,-1,0,-1⟩, ⟨0,-1,0,-1⟩, ⟨0,-1,0,-1⟩,
     ⟨0,-1,0,-1⟩, ⟨0,-1,0,-1⟩, ⟨0,-1,0,-1⟩, ⟨0,-1,0,-1⟩, ⟨0,-1,0,-1⟩] from rfl]
  simp only [List.map]
  norm_num [specSlice, x0, x1, x2, x3, x4, x5]

/-- Evaluation rule for Math.round at concrete inputs. -/
theorem jsRound_eval (q : ℚ) (n : ℤ) (h1 : (n : ℚ) ≤ q + 1 / 2)
    (h2 : q + 1 / 2 < (n : ℚ) + 1) : jsRound q = n := by
  unfold jsRound
  rw [Int.floor_eq_iff]
  exact ⟨h1, h2⟩

/-- C1: the spec says the single-cell metazones are stored as that one
Range unwrapped and that is("center", x, y) holds exactly when
whichSlice(x, y) = 13 (corners alike for 1, 5, 21, 25).  The code instead
stores one-element arrays, whose bounds read back as undefined, so is
answers false even at the exact center: the code contradicts its own header
documentation (is returns true when the coordinate is inside the metazone;
center is the 13th zone). -/
theorem C1_center_is_broken :
    buildMeta 1000 1000 ("center") = some (MetaVal.wrapped ⟨490,509,490,509⟩) ∧
    is 1000 1000 ("center") 500 500 = Except.ok false ∧
    whichSlice 1000 1000 500 500 = some 13 ∧
    is 1000 1000 ("lt_corner") 0 0 = Except.ok false ∧
    whichSlice 1000 1000 0 0 = some 1 := by
  have hc : buildMeta 1000 1000 ("center") =
      some (.wrapped (sliceGet 1000 1000 13)) := rfl
  have hl : buildMeta 1000 1000 ("lt_corner") =
      some (.wrapped (sliceGet 1000 1000 1)) := rfl
  have h13 : sliceGet 1000 1000 13 = ⟨490,509,490,509⟩ := by
    simp only [sliceGet, sliceScreen_1000]; decide
  have h1 : sliceGet 1000 1000 1 = ⟨0,149,0,149⟩ := by
    simp only [sliceGet, sliceScreen_1000]; decide
  have hj500 : jsRound (500 : ℚ) = 500 :=
    jsRound_eval _ _ (by norm_num) (by norm_num)
  have hj0 : jsRound (0 : ℚ) = 0 :=
    jsRound_eval _ _ (by norm_num) (by norm_num)
  refine ⟨by rw [hc, h13], ?_, ?_, ?_, ?_⟩
  · unfold is; rw [hc]
  · unfold whichSlice; rw [sliceScreen_1000, hj500]; decide
  · unfold is; rw [hl]
  · unfold whichSlice; rw [sliceScreen_1000, hj0]; decide

/-- C2: the spec says h_mid is the bounding-box union of the row-3 slices
11..15 (and v_mid of the column-3 slices 3, 8, 13, 18, 23, which the code
does build, so is("v_mid", 500, 10) is true).  The code instead merges
slices 15..20 into h_mid, that is row-3 column-5 plus all of row 4,
contradicting its own header documentation (h_mid: any pixel in the 3rd row
of zones): on a 1000 by 1000 surface the stored h_mid is y in 490..849 where
the row-3 union stops at 509, so the point (500, 600) is classified inside
h_mid. -/
theorem C2_h_mid_divergence :
    buildMeta 1000 1000 ("v_mid") = some (MetaVal.range ⟨490,509,0,999⟩) ∧
    is 1000 1000 ("v_mid") 500 10 = Except.ok true ∧
    buildMeta 1000 1000 ("h_mid") = some (MetaVal.range ⟨0,999,490,849⟩) ∧
    getMergedRange [sliceGet 1000 1000 11, sliceGet 1000 1000 12,
      sliceGet 1000 1000 13, sliceGet 1000 1000 14, sliceGet 1000 1000 15] =
      ⟨0,999,490,509⟩ ∧
    is 1000 1000 ("h_mid") 500 600 = Except.ok true ∧
    ¬((600 : ℤ) ≤ 509) := by
  have hv : buildMeta 1000 1000 ("v_mid") = some (MetaVal.range ⟨490,509,0,999⟩) := by
    have h : buildMeta 1000 1000 ("v_mid") = some (.range (getMergedRange
        [sliceGet 1000 1000 3, sliceGet 1000 1000 8, sliceGet 1000 1000 13,
         sliceGet 1000 1000 18, sliceGet 1000 1000 23])) := rfl
    rw [h]
    simp only [sliceGet, sliceScreen_1000]
    decide
  have hh : buildMeta 1000 1000 ("h_mid") = some (MetaVal.range ⟨0,999,490,849⟩) := by
    have h : buildMeta 1000 1000 ("h_mid") = some (.range (getMergedRange
        [sliceGet 1000 1000 15, sliceGet 1000 1000 16, sliceGet 1000 1000 17,
         sliceGet 1000 1000 18, sliceGet 1000 1000 19, sliceGet 1000 1000 20])) := rfl
    rw [h]
    simp only [sliceGet, sliceScreen_1000]
    decide
  refine ⟨hv, ?_, hh, ?_, ?_, by norm_num⟩
  · unfold is; rw [hv]
    show Except.ok (decide ((500 : ℚ) ≥ ((490 : ℤ) : ℚ) ∧ (500 : ℚ) ≤ ((509 : ℤ) : ℚ) ∧
      (10 : ℚ) ≥ ((0 : ℤ) : ℚ) ∧ (10 : ℚ) ≤ ((999 : ℤ) : ℚ))) = Except.ok true
    rw [decide_eq_true (by norm_num)]
  · simp only [sliceGet, sliceScreen_1000]; decide
  · unfold is; rw [hh]
    show Except.ok (decide ((500 : ℚ) ≥ ((0 : ℤ) : ℚ) ∧ (500 : ℚ) ≤ ((999 : ℤ) : ℚ) ∧
      (600 : ℚ) ≥ ((490 : ℤ) : ℚ) ∧ (600 : ℚ) ≤ ((849 : ℤ) : ℚ))) = Except.ok true
    rw [decide_eq_true (by norm_num)]

/-- C4 counterexample: at 111 by 111 the claimed formula
ystop = yoffset + round(heightPercent/100 * height) - 1 fails for cell 21:
the cursor reaches yoffset 95, the rounded extent is 17, so the formula
gives 111, but the stored ystop is the boundary-corrected 110. -/
theorem C4_counterexample :
    (sliceGet 111 111 21).ystart = 95 ∧ pxExtent 111 15 = 17 ∧
    (sliceGet 111 111 21).ystop = 110 ∧ (sliceGet 111 111 21).ystop ≠ 95 + 17 - 1 := by
  refine ⟨?_, pxExtent_111_15, ?_, ?_⟩ <;>
    (simp only [sliceGet, sliceScreen_111]; decide)

/-- C6 counterexample: the fixed metazone vocabulary has 19 distinct names,
not 18, and all 19 are accepted by is without an error; moreover the error
criterion is not an iff against the vocabulary at all, because the name
toString, outside the vocabulary, is found on the prototype chain of
this.meta and is("toString", 1, 1) returns false without raising any error,
while is("bogus_zone", 1, 1) does error. -/
theorem C6_counterexample :
    metaNameList.length = 19 ∧ metaNameList.Nodup ∧
    (metaNameList.all fun n => !isError (is 1000 1000 n 1 1)) = true ∧
    metaNameList.length ≠ 18 ∧
    ("toString" : String) ∉ metaNameList ∧
    is 1000 1000 ("toString") 1 1 = Except.ok false ∧
    isError (is 1000 1000 ("bogus_zone") 1 1) = true := by
  refine ⟨rfl, by decide, ?_, by decide, by decide, rfl, rfl⟩
  decide

/-- C9 counterexample: on the positive-dimension instance 1 by 1 every
rounded extent is 0, all 25 cells are empty, and whichSlice(-1/4, -1/4)
returns the not-found signal instead of slice 1, although the coordinates
round to 0. -/
theorem C9_counterexample :
    (0 : ℤ) < 1 ∧ jsRound (-(1/4) : ℚ) = 0 ∧
    whichSlice 1 1 (-(1/4)) (-(1/4)) = none := by
  have hj : jsRound (-(1/4) : ℚ) = 0 := jsRound_eval _ _ (by norm_num) (by norm_num)
  refine ⟨by norm_num, hj, ?_⟩
  unfold whichSlice
  rw [sliceScreen_one, hj]
  decide

/-- C10: the boundary correction fires exactly when a computed ystop equals
the surface height and never touches xstop: the partition is the raw
partition with the per-cell ystop clamp mapped over it.  On the 111 by 111
surface, whose rounded extents 17+38+2+38+17 sum to 112, the last column
protrudes to xstop 111 = width uncorrected, so whichSlice(111, 0) finds
slice 5 for a point with x beyond the last pixel column, while the last row
is clamped from 111 to 110 and whichSlice(0, 111) finds nothing. -/
theorem C10_boundary_asymmetry :
    (∀ xsize ysize : ℤ,
      sliceScreen xsize ysize = (sliceScreenRaw xsize ysize).map (clampY ysize)) ∧
    pxExtent 111 15 + pxExtent 111 34 + pxExtent 111 2 + pxExtent 111 34 +
      pxExtent 111 15 = 112 ∧
    (sliceGet 111 111 5).xstop = 111 ∧ (sliceGet 111 111 25).xstop = 111 ∧
    whichSlice 111 111 111 0 = some 5 ∧
    (sliceGet 111 111 21).ystop = 110 ∧ (sliceGet 111 111 25).ystop = 110 ∧
    whichSlice 111 111 0 111 = none := by
  have hj111 : jsRound (111 : ℚ) = 111 := jsRound_eval _ _ (by norm_num) (by norm_num)
  have hj0 : jsRound (0 : ℚ) = 0 := jsRound_eval _ _ (by norm_num) (by norm_num)
  refine ⟨sliceScreen_raw_clamp, ?_, ?_, ?_, ?_, ?_, ?_, ?_⟩
  · rw [pxExtent_111_15, pxExtent_111_34, pxExtent_111_2]; norm_num
  · simp only [sliceGet, sliceScreen_111]; decide
  · simp only [sliceGet, sliceScreen_111]; decide
  · unfold whichSlice; rw [sliceScreen_111, hj111, hj0]; decide
  · simp only [sliceGet, sliceScreen_111]; decide
  · simp only [sliceGet, sliceScreen_111]; decide
  · unfold whichSlice; rw [sliceScreen_111, hj0, hj111]; decide

/-- C7: the partition equals the raw (uncorrected) partition with the ystop
boundary correction mapped over the cells; the correction decrements ystop
exactly when the computed ystop equals the surface height and never touches
xstart, xstop or ystart. -/
theorem C7_ystop_clamp :
    ∀ xsize ysize : ℤ,
      sliceScreen xsize ysize = (sliceScreenRaw xsize ysize).map (clampY ysize) ∧
      ∀ r : Range, (clampY ysize r).xstart = r.xstart ∧
        (clampY ysize r).xstop = r.xstop ∧
        (clampY ysize r).ystart = r.ystart ∧
        (clampY ysize r).ystop = (if r.ystop = ysize then r.ystop - 1 else r.ystop) := by
  intro xsize ysize
  refine ⟨sliceScreen_raw_clamp xsize ysize, ?_⟩
  intro r
  by_cases hc : r.ystop = ysize <;> simp [clampY, hc]

/-- C5: whichSlice rounds both coordinates with Math.round, scans the slice
indices 1..25 in ascending order, returns the first index whose range
contains the rounded point inclusively on all four bounds, and returns the
not-found signal none exactly when no slice contains the rounded point. -/
theorem C5_whichSlice_scan :
    ∀ (xsize ysize : ℤ) (x y : ℚ),
      (∀ i : ℕ, whichSlice xsize ysize x y = some i ↔
        (1 ≤ i ∧ i ≤ 25 ∧
          containsInt (sliceGet xsize ysize i) (jsRound x) (jsRound y) = true ∧
          ∀ j : ℕ, 1 ≤ j → j < i →
            containsInt (sliceGet xsize ysize j) (jsRound x) (jsRound y) = false)) ∧
      (whichSlice xsize ysize x y = none ↔
        ∀ i : ℕ, 1 ≤ i → i ≤ 25 →
          containsInt (sliceGet xsize ysize i) (jsRound x) (jsRound y) = false) := by
  intro xsize ysize x y
  have hlen := sliceScreen_length xsize ysize
  constructor
  · intro i
    constructor
    · intro hsome
      unfold whichSlice at hsome
      obtain ⟨hb, hlt, hc, hmin⟩ :=
        whichSliceLoop_some_inv (jsRound x) (jsRound y) _ 1 i hsome
      rw [hlen] at hlt
      refine ⟨hb, by omega, ?_, ?_⟩
      · unfold sliceGet; exact hc
      · intro j h1 h2
        have := hmin (j - 1) (by omega)
        unfold sliceGet
        exact this
    · rintro ⟨h1, h2, hc, hmin⟩
      have hstep := whichSliceLoop_eq_some (jsRound x) (jsRound y)
        (sliceScreen xsize ysize) 1 (i - 1)
        (by rw [hlen]; omega) (by unfold sliceGet at hc; exact hc)
        (fun j hj => by
          have := hmin (j + 1) (by omega) (by omega)
          unfold sliceGet at this
          simpa using this)
      unfold whichSlice
      rw [hstep]
      congr 1
      omega
  · constructor
    · intro hnone i h1 h2
      unfold whichSlice at hnone
      have := whichSliceLoop_none_inv (jsRound x) (jsRound y) _ 1 hnone (i - 1)
        (by rw [hlen]; omega)
      unfold sliceGet
      exact this
    · intro hall
      unfold whichSlice
      exact whichSliceLoop_eq_none _ _ _ 1 (fun j hj => by
        have := hall (j + 1) (by omega) (by rw [hlen] at hj; omega)
        unfold sliceGet at this
        simpa using this)

/-- C5 witness: the characterization instantiated on the 1000 by 1000
surface at the center point. -/
theorem C5_whichSlice_scan_witness :
    whichSlice 1000 1000 500 500 = none ↔
      ∀ i : ℕ, 1 ≤ i → i ≤ 25 →
        containsInt (sliceGet 1000 1000 i) (jsRound 500) (jsRound 500) = false :=
  (C5_whichSlice_scan 1000 1000 500 500).2

/-- The metazone lookup misses exactly for names outside both the 19-name
vocabulary and the members inherited from Object.prototype. -/
theorem buildMeta_none_iff (xsize ysize : ℤ) (name : String) :
    buildMeta xsize ysize name = none ↔
      name ∉ metaNameList ∧ name ∉ protoNameList := by
  unfold buildMeta
  split <;> simp_all [metaNameList, protoNameList]

/-- C6 (amended): is raises the property-read-on-undefined error exactly
when the metazone name is neither one of the fixed 19-name vocabulary nor a
property name inherited from Object.prototype; for an inherited name such
as toString the lookup finds the inherited member, whose bounds read back
undefined, so is returns false without error; is("bogus_zone",1,1) does
raise the error.  Moreover is compares the raw coordinates against the
stored bounds without rounding: at x = 489.6 the point is outside the
stored v_mid band although Math.round would carry it to 490, which is
inside, and whichSlice on the same point does round and lands in the
column-3 slice 3. -/
theorem C6_is_error_iff :
    (∀ (xsize ysize : ℤ) (name : String) (x y : ℚ),
      isError (is xsize ysize name x y) = true ↔
        (name ∉ metaNameList ∧ name ∉ protoNameList)) ∧
    is 1000 1000 ("toString") 1 1 = Except.ok false ∧
    isError (is 1000 1000 ("bogus_zone") 1 1) = true ∧
    is 1000 1000 ("v_mid") (2448/5) 10 = Except.ok false ∧
    jsRound (2448/5) = 490 ∧
    ((490 : ℤ) ≥ 490 ∧ (490 : ℤ) ≤ 509) ∧
    whichSlice 1000 1000 (2448/5) 10 = some 3 := by
  have hv : buildMeta 1000 1000 ("v_mid") = some (MetaVal.range ⟨490,509,0,999⟩) := by
    have h : buildMeta 1000 1000 ("v_mid") = some (.range (getMergedRange
        [sliceGet 1000 1000 3, sliceGet 1000 1000 8, sliceGet 1000 1000 13,
         sliceGet 1000 1000 18, sliceGet 1000 1000 23])) := rfl
    rw [h]
    simp only [sliceGet, sliceScreen_1000]
    decide
  refine ⟨?_, rfl, rfl, ?_, ?_, by norm_num, ?_⟩
  · intro xsize ysize name x y
    rcases hbm : buildMeta xsize ysize name with _ | mv
    · unfold is
      rw [hbm]
      simp only [isError]
      simp only [true_iff]
      exact (buildMeta_none_iff xsize ysize name).mp hbm
    · have hmem : ¬(name ∉ metaNameList ∧ name ∉ protoNameList) := by
        intro hn
        rw [(buildMeta_none_iff xsize ysize name).mpr hn] at hbm
        exact Option.noConfusion hbm
      unfold is
      rw [hbm]
      cases mv <;> simp [isError, hmem]
  · unfold is
    rw [hv]
    show Except.ok (decide ((2448/5 : ℚ) ≥ ((490 : ℤ) : ℚ) ∧ (2448/5 : ℚ) ≤ ((509 : ℤ) : ℚ) ∧
      (10 : ℚ) ≥ ((0 : ℤ) : ℚ) ∧ (10 : ℚ) ≤ ((999 : ℤ) : ℚ))) = Except.ok false
    rw [decide_eq_false (by norm_num)]
  · exact jsRound_eval _ _ (by norm_num) (by norm_num)
  · have hjx : jsRound (2448/5 : ℚ) = 490 := jsRound_eval _ _ (by norm_num) (by norm_num)
    have hjy : jsRound (10 : ℚ) = 10 := jsRound_eval _ _ (by norm_num) (by norm_num)
    unfold whichSlice
    rw [sliceScreen_1000, hjx, hjy]
    decide

/-- C6 witness: the error criterion instantiated at an unknown name, at an
own key, and at an inherited Object.prototype member. -/
theorem C6_is_error_iff_witness :
    (isError (is 1000 1000 ("bogus_zone") 1 1) = true ↔
      (("bogus_zone" : String) ∉ metaNameList ∧
       ("bogus_zone" : String) ∉ protoNameList)) ∧
    (isError (is 1000 1000 ("left") 1 1) = true ↔
      (("left" : String) ∉ metaNameList ∧
       ("left" : String) ∉ protoNameList)) ∧
    (isError (is 1000 1000 ("toString") 1 1) = true ↔
      (("toString" : String) ∉ metaNameList ∧
       ("toString" : String) ∉ protoNameList)) :=
  ⟨C6_is_error_iff.1 1000 1000 ("bogus_zone") 1 1,
   C6_is_error_iff.1 1000 1000 ("left") 1 1,
   C6_is_error_iff.1 1000 1000 ("toString") 1 1⟩

/-- Math.round sends every coordinate in the interval from -1/2 inclusive to
1/2 exclusive to 0. -/
theorem jsRound_small (x : ℚ) (h1 : -(1/2) ≤ x) (h2 : x < 1/2) : jsRound x = 0 := by
  unfold jsRound
  rw [Int.floor_eq_zero_iff]
  rw [Set.mem_Ico]
  constructor <;> linarith

/-- Cursor positions are nonnegative once the dimension is at least 4. -/
theorem specX_nonneg (d : ℤ) (hd : 4 ≤ d) (c : ℕ) (hc : c ≤ 5) :
    0 ≤ specX d c := by
  obtain ⟨x0, x1, x2, x3, x4, x5⟩ := specX_vals d
  have h15 := pxExtent_bounds d 15
  have h34 := pxExtent_bounds d 34
  have h2 := pxExtent_bounds d 2
  interval_cases c <;> omega

/-- C9 (amended): once both dimensions are at least 4 (so that the corner
cell is nonempty; for smaller surfaces all rounded extents can be 0 and the
property fails), coordinates in the interval from -1/2 inclusive to 0
exclusive round to 0 and whichSlice returns slice 1, while a coordinate that
rounds to -1 or below matches no slice and yields the not-found signal. -/
theorem C9_negative_rounding :
    ∀ xsize ysize : ℤ, 4 ≤ xsize → 4 ≤ ysize →
      (∀ x y : ℚ, -(1/2) ≤ x → x < 0 → -(1/2) ≤ y → y < 0 →
        whichSlice xsize ysize x y = some 1) ∧
      (∀ x y : ℚ, jsRound x ≤ -1 ∨ jsRound y ≤ -1 →
        whichSlice xsize ysize x y = none) := by
  intro w h hw hh
  have hbw := pxExtent_bounds w 15
  have hbh := pxExtent_bounds h 15
  obtain ⟨wx0, wx1, _, _, _, _⟩ := specX_vals w
  obtain ⟨hx0, hx1, _, _, _, _⟩ := specX_vals h
  have hcl : specX h 1 - 1 ≠ h := by omega
  have hcont : containsInt (specSlice w h 0) 0 0 = true := by
    show containsInt ⟨specX w 0, specX w 1 - 1, specX h 0,
      if specX h 1 - 1 = h then specX h 1 - 1 - 1 else specX h 1 - 1⟩ 0 0 = true
    rw [if_neg hcl]
    simp only [containsInt, decide_eq_true_eq]
    omega
  constructor
  · intro x y h1 h2 h3 h4
    have hjx : jsRound x = 0 := jsRound_small x h1 (by linarith)
    have hjy : jsRound y = 0 := jsRound_small y h3 (by linarith)
    unfold whichSlice
    rw [hjx, hjy]
    have := whichSliceLoop_eq_some 0 0 (sliceScreen w h) 1 0
      (by rw [sliceScreen_length]; omega)
      (by rw [sliceScreen_getD w h 0 (by omega)]; exact hcont)
      (fun j hj => absurd hj (by omega))
    simpa using this
  · intro x y hxy
    unfold whichSlice
    apply whichSliceLoop_eq_none
    intro j hj
    rw [sliceScreen_length] at hj
    rw [sliceScreen_getD w h j hj]
    have hxs : 0 ≤ specX w (j % 5) := specX_nonneg w (by omega) (j % 5) (by omega)
    have hys : 0 ≤ specX h (j / 5) := specX_nonneg h (by omega) (j / 5) (by omega)
    simp only [containsInt, specSlice, decide_eq_false_iff_not]
    rintro ⟨ha, hb, hc, hd⟩
    rcases hxy with hx | hy
    · omega
    · omega

/-- C9 witness: on the 1000 by 1000 surface, (-1/4, -1/4) rounds to the
origin and lands in slice 1, while x = -1 rounds to -1 and is not found. -/
theorem C9_negative_rounding_witness :
    (4 : ℤ) ≤ 1000 ∧
    whichSlice 1000 1000 (-(1/4)) (-(1/4)) = some 1 ∧
    whichSlice 1000 1000 (-1) 5 = none :=
  ⟨by norm_num,
   (C9_negative_rounding 1000 1000 (by norm_num) (by norm_num)).1 (-(1/4)) (-(1/4))
     (by norm_num) (by norm_num) (by norm_num) (by norm_num),
   (C9_negative_rounding 1000 1000 (by norm_num) (by norm_num)).2 (-1) 5
     (Or.inl (by
        rw [show jsRound (-1 : ℚ) = -1 from jsRound_eval _ _ (by norm_num) (by norm_num)]))⟩

/-- C4 (amended): the partition follows the closed form of the spec formula,
cell k+1 being the range from cursor position specX to the next cursor
position minus one on each axis, with a computed ystop equal to the surface
height decremented by 1; on the 1000 by 1000 surface slice 1 is the 150 by
150 corner, slice 13 the 20 by 20 center cell at 490..509, and
whichSlice(500, 500) returns 13. -/
theorem C4_closed_form :
    (∀ xsize ysize : ℤ,
      sliceScreen xsize ysize = (List.range 25).map (specSlice xsize ysize)) ∧
    sliceGet 1000 1000 1 = ⟨0,149,0,149⟩ ∧
    sliceGet 1000 1000 13 = ⟨490,509,490,509⟩ ∧
    whichSlice 1000 1000 500 500 = some 13 := by
  refine ⟨sliceScreen_eq_spec, ?_, ?_, ?_⟩
  · simp only [sliceGet, sliceScreen_1000]; decide
  · simp only [sliceGet, sliceScreen_1000]; decide
  · have hj : jsRound (500 : ℚ) = 500 := jsRound_eval _ _ (by norm_num) (by norm_num)
    unfold whichSlice
    rw [sliceScreen_1000, hj]
    decide

/-- A point determines its column (or row) band uniquely once the dimension
is at least 100: the five cursor intervals are pairwise disjoint. -/
theorem band_unique (d : ℤ) (hd : 100 ≤ d) (c c' : ℕ) (hc : c < 5) (hc' : c' < 5)
    (p : ℤ) (h1 : specX d c ≤ p) (h2 : p ≤ specX d (c + 1) - 1)
    (h3 : specX d c' ≤ p) (h4 : p ≤ specX d (c' + 1) - 1) : c = c' := by
  obtain ⟨x0, x1, x2, x3, x4, x5⟩ := specX_vals d
  have hb := pxExtent_bounds d 15
  have hz := pxExtent_bounds d 34
  have hm := pxExtent_bounds d 2
  have q1 : specX d (0 + 1) = specX d 1 := rfl
  have q2 : specX d (1 + 1) = specX d 2 := rfl
  have q3 : specX d (2 + 1) = specX d 3 := rfl
  have q4 : specX d (3 + 1) = specX d 4 := rfl
  have q5 : specX d (4 + 1) = specX d 5 := rfl
  interval_cases c <;> interval_cases c' <;> omega

/-- Containment in a cell yields the column and row band bounds (the clamp
only ever shrinks the stored ystop). -/
theorem contains_bounds (xsize ysize : ℤ) (k : ℕ) (_hk : k < 25) (p q : ℤ)
    (hcon : containsInt (specSlice xsize ysize k) p q = true) :
    specX xsize (k % 5) ≤ p ∧ p ≤ specX xsize (k % 5 + 1) - 1 ∧
      specX ysize (k / 5) ≤ q ∧ q ≤ specX ysize (k / 5 + 1) - 1 := by
  simp only [containsInt, specSlice, decide_eq_true_eq] at hcon
  obtain ⟨h1, h2, h3, h4⟩ := hcon
  refine ⟨h1, h2, h3, ?_⟩
  by_cases hcl : specX ysize (k / 5 + 1) - 1 = ysize
  · rw [if_pos hcl] at h4; omega
  · rw [if_neg hcl] at h4; exact h4

/-- Band bounds and distance from the bottom edge give containment in the
cell, whether or not the clamp fires. -/
theorem contains_of_bounds (xsize ysize : ℤ) (k : ℕ) (p q : ℤ)
    (h1 : specX xsize (k % 5) ≤ p) (h2 : p ≤ specX xsize (k % 5 + 1) - 1)
    (h3 : specX ysize (k / 5) ≤ q) (h4 : q ≤ specX ysize (k / 5 + 1) - 1)
    (h5 : q ≤ ysize - 1) :
    containsInt (specSlice xsize ysize k) p q = true := by
  simp only [containsInt, specSlice, decide_eq_true_eq]
  refine ⟨h1, h2, h3, ?_⟩
  by_cases hcl : specX ysize (k / 5 + 1) - 1 = ysize
  · rw [if_pos hcl]; omega
  · rw [if_neg hcl]; exact h4

/-- C8: for dimensions at least 100 the 25 slices are pairwise
non-overlapping, and every integer point at least 2 pixels away from the
right and bottom edges (the rounding margin: the five rounded extents sum to
within 2 of the dimension) is classified by whichSlice into exactly one
index in 1..25, every other slice rejecting the point. -/
theorem C8_partition :
    ∀ xsize ysize : ℤ, 100 ≤ xsize → 100 ≤ ysize →
      (∀ j k : ℕ, j < 25 → k < 25 → j ≠ k → ∀ p q : ℤ,
        ¬(containsInt ((sliceScreen xsize ysize).getD j default) p q = true ∧
          containsInt ((sliceScreen xsize ysize).getD k default) p q = true)) ∧
      (∀ x y : ℤ, 0 ≤ x → x ≤ xsize - 3 → 0 ≤ y → y ≤ ysize - 3 →
        ∃ i : ℕ, whichSlice xsize ysize (x : ℚ) (y : ℚ) = some i ∧
          1 ≤ i ∧ i ≤ 25 ∧
          ∀ j : ℕ, 1 ≤ j → j ≤ 25 →
            containsInt (sliceGet xsize ysize j) x y = true → j = i) := by
  intro w h hw hh
  constructor
  · rintro j k hj hk hne p q ⟨hcj, hck⟩
    rw [sliceScreen_getD w h j hj] at hcj
    rw [sliceScreen_getD w h k hk] at hck
    obtain ⟨a1, a2, a3, a4⟩ := contains_bounds w h j hj p q hcj
    obtain ⟨b1, b2, b3, b4⟩ := contains_bounds w h k hk p q hck
    have hcol : j % 5 = k % 5 :=
      band_unique w hw _ _ (by omega) (by omega) p a1 a2 b1 b2
    have hrow : j / 5 = k / 5 :=
      band_unique h hh _ _ (by omega) (by omega) q a3 a4 b3 b4
    omega
  · intro x y hx1 hx2 hy1 hy2
    obtain ⟨wv0, wv1, wv2, wv3, wv4, wv5⟩ := specX_vals w
    obtain ⟨hv0, hv1, hv2, hv3, hv4, hv5⟩ := specX_vals h
    have hbw := pxExtent_bounds w 15
    have hzw := pxExtent_bounds w 34
    have hmw := pxExtent_bounds w 2
    have hbh := pxExtent_bounds h 15
    have hzh := pxExtent_bounds h 34
    have hmh := pxExtent_bounds h 2
    obtain ⟨c, hc5, hcx1, hcx2⟩ :
        ∃ c : ℕ, c < 5 ∧ specX w c ≤ x ∧ x ≤ specX w (c + 1) - 1 := by
      have hsplit : (specX w 0 ≤ x ∧ x ≤ specX w 1 - 1) ∨
          (specX w 1 ≤ x ∧ x ≤ specX w 2 - 1) ∨
          (specX w 2 ≤ x ∧ x ≤ specX w 3 - 1) ∨
          (specX w 3 ≤ x ∧ x ≤ specX w 4 - 1) ∨
          (specX w 4 ≤ x ∧ x ≤ specX w 5 - 1) := by omega
      rcases hsplit with ⟨u, v⟩ | ⟨u, v⟩ | ⟨u, v⟩ | ⟨u, v⟩ | ⟨u, v⟩
      exacts [⟨0, by omega, u, v⟩, ⟨1, by omega, u, v⟩, ⟨2, by omega, u, v⟩,
        ⟨3, by omega, u, v⟩, ⟨4, by omega, u, v⟩]
    obtain ⟨r, hr5, hry1, hry2⟩ :
        ∃ r : ℕ, r < 5 ∧ specX h r ≤ y ∧ y ≤ specX h (r + 1) - 1 := by
      have hsplit : (specX h 0 ≤ y ∧ y ≤ specX h 1 - 1) ∨
          (specX h 1 ≤ y ∧ y ≤ specX h 2 - 1) ∨
          (specX h 2 ≤ y ∧ y ≤ specX h 3 - 1) ∨
          (specX h 3 ≤ y ∧ y ≤ specX h 4 - 1) ∨
          (specX h 4 ≤ y ∧ y ≤ specX h 5 - 1) := by omega
      rcases hsplit with ⟨u, v⟩ | ⟨u, v⟩ | ⟨u, v⟩ | ⟨u, v⟩ | ⟨u, v⟩
      exacts [⟨0, by omega, u, v⟩, ⟨1, by omega, u, v⟩, ⟨2, by omega, u, v⟩,
        ⟨3, by omega, u, v⟩, ⟨4, by omega, u, v⟩]
    have hk25 : 5 * r + c < 25 := by omega
    have hkc : (5 * r + c) % 5 = c := by omega
    have hkr : (5 * r + c) / 5 = r := by omega
    have hcont : containsInt (specSlice w h (5 * r + c)) x y = true := by
      apply contains_of_bounds
      · rw [hkc]; exact hcx1
      · rw [hkc]; exact hcx2
      · rw [hkr]; exact hry1
      · rw [hkr]; exact hry2
      · omega
    have huniq : ∀ j : ℕ, j < 25 →
        containsInt (specSlice w h j) x y = true → j = 5 * r + c := by
      intro j hj hcj
      obtain ⟨a1, a2, a3, a4⟩ := contains_bounds w h j hj x y hcj
      obtain ⟨b1, b2, b3, b4⟩ := contains_bounds w h (5 * r + c) hk25 x y hcont
      have e1 : j % 5 = (5 * r + c) % 5 :=
        band_unique w hw _ _ (by omega) (by omega) x a1 a2 b1 b2
      have e2 : j / 5 = (5 * r + c) / 5 :=
        band_unique h hh _ _ (by omega) (by omega) y a3 a4 b3 b4
      omega
    refine ⟨5 * r + c + 1, ?_, by omega, by omega, ?_⟩
    · unfold whichSlice
      rw [jsRound_intCast, jsRound_intCast]
      have hstep := whichSliceLoop_eq_some x y (sliceScreen w h) 1 (5 * r + c)
        (by rw [sliceScreen_length]; omega)
        (by rw [sliceScreen_getD w h _ hk25]; exact hcont)
        (fun j hj => by
          rw [sliceScreen_getD w h j (by omega)]
          cases hb : containsInt (specSlice w h j) x y
          · rfl
          · exact absurd (huniq j (by omega) hb) (by omega))
      rw [hstep]
      congr 1
      omega
    · intro j h1j h2j hcj
      rw [sliceGet_eq_spec w h j h1j h2j] at hcj
      have := huniq (j - 1) (by omega) hcj
      omega

/-- C8 witness: the partition property instantiated on the 1000 by 1000
surface at the center point. -/
theorem C8_partition_witness :
    (100 : ℤ) ≤ 1000 ∧
    (∃ i : ℕ, whichSlice 1000 1000 ((500 : ℤ) : ℚ) ((500 : ℤ) : ℚ) = some i ∧
      1 ≤ i ∧ i ≤ 25 ∧
      ∀ j : ℕ, 1 ≤ j → j ≤ 25 →
        containsInt (sliceGet 1000 1000 j) 500 500 = true → j = i) :=
  ⟨by norm_num,
   (C8_partition 1000 1000 (by norm_num) (by norm_num)).2 500 500
     (by norm_num) (by norm_num) (by norm_num) (by norm_num)⟩

/-- The uninitialised (null) accumulator takes the first value. -/
theorem mergeMin_none (v : ℤ) : mergeMin none v = some v := rfl

/-- The uninitialised (null) accumulator takes the first value. -/
theorem mergeMax_none (v : ℤ) : mergeMax none v = some v := rfl

/-- For dimensions of at least 100 the boundary correction can only concern
the last row: the first four cursor rows stop strictly before the surface
height. -/
theorem row_noclamp (d : ℤ) (hd : 100 ≤ d) :
    specX d 1 - 1 ≠ d ∧ specX d 2 - 1 ≠ d ∧ specX d 3 - 1 ≠ d ∧
      specX d 4 - 1 ≠ d := by
  obtain ⟨x0, x1, x2, x3, x4, x5⟩ := specX_vals d
  have hb := pxExtent_bounds d 15
  have hz := pxExtent_bounds d 34
  have hm := pxExtent_bounds d 2
  omega

set_option maxHeartbeats 2000000 in
/-- C3 (amended): for every instance with both dimensions at least 100, left
is the bounding-box union of the slices in columns one and two (not one to
three), right of columns four and five, top of rows one and two, bottom of
rows four and five; left and right together span the surface width except
for the nonempty column-3 (v_mid) band, and top and bottom span the height
except for the row-3 band, both up to the rounding margin at the far
edges. -/
theorem C3_composition :
    ∀ xsize ysize : ℤ, 100 ≤ xsize → 100 ≤ ysize → C3Spec xsize ysize := by
  intro w h hw hh
  obtain ⟨hno1, hno2, hno3, hno4⟩ := row_noclamp h hh
  obtain ⟨wv0, wv1, wv2, wv3, wv4, wv5⟩ := specX_vals w
  obtain ⟨hv0, hv1, hv2, hv3, hv4, hv5⟩ := specX_vals h
  have hbw := pxExtent_bounds w 15
  have hzw := pxExtent_bounds w 34
  have hmw := pxExtent_bounds w 2
  have hbh := pxExtent_bounds h 15
  have hzh := pxExtent_bounds h 34
  have hmh := pxExtent_bounds h 2
  have hY5 : h - 3 ≤ (if specX h 5 - 1 = h then specX h 5 - 1 - 1 else specX h 5 - 1) ∧
      (if specX h 5 - 1 = h then specX h 5 - 1 - 1 else specX h 5 - 1) ≤ specX h 5 - 1 := by
    by_cases hcl : specX h 5 - 1 = h
    · simp only [if_pos hcl]; omega
    · simp only [if_neg hcl]; omega
  have h13 : sliceGet w h 13 = ⟨specX w 2, specX w 3 - 1, specX h 2, specX h 3 - 1⟩ := by
    rw [sliceGet_eq_spec w h 13 (by omega) (by omega)]
    norm_num [specSlice, hno3]
  have h13a : (sliceGet w h 13).xstart = specX w 2 := by rw [h13]
  have h13b : (sliceGet w h 13).xstop = specX w 3 - 1 := by rw [h13]
  have h13c : (sliceGet w h 13).ystart = specX h 2 := by rw [h13]
  have h13d : (sliceGet w h 13).ystop = specX h 3 - 1 := by rw [h13]
  have hLf : (getMergedRange [sliceGet w h 1, sliceGet w h 2, sliceGet w h 6,
        sliceGet w h 7, sliceGet w h 11, sliceGet w h 12, sliceGet w h 16,
        sliceGet w h 17, sliceGet w h 21, sliceGet w h 22]).xstart = 0 ∧
      (getMergedRange [sliceGet w h 1, sliceGet w h 2, sliceGet w h 6,
        sliceGet w h 7, sliceGet w h 11, sliceGet w h 12, sliceGet w h 16,
        sliceGet w h 17, sliceGet w h 21, sliceGet w h 22]).xstop = specX w 2 - 1 ∧
      (getMergedRange [sliceGet w h 1, sliceGet w h 2, sliceGet w h 6,
        sliceGet w h 7, sliceGet w h 11, sliceGet w h 12, sliceGet w h 16,
        sliceGet w h 17, sliceGet w h 21, sliceGet w h 22]).ystart = 0 ∧
      h - 3 ≤ (getMergedRange [sliceGet w h 1, sliceGet w h 2, sliceGet w h 6,
        sliceGet w h 7, sliceGet w h 11, sliceGet w h 12, sliceGet w h 16,
        sliceGet w h 17, sliceGet w h 21, sliceGet w h 22]).ystop := by
    rw [sliceGet_eq_spec w h 1 (by omega) (by omega),
        sliceGet_eq_spec w h 2 (by omega) (by omega),
        sliceGet_eq_spec w h 6 (by omega) (by omega),
        sliceGet_eq_spec w h 7 (by omega) (by omega),
        sliceGet_eq_spec w h 11 (by omega) (by omega),
        sliceGet_eq_spec w h 12 (by omega) (by omega),
        sliceGet_eq_spec w h 16 (by omega) (by omega),
        sliceGet_eq_spec w h 17 (by omega) (by omega),
        sliceGet_eq_spec w h 21 (by omega) (by omega),
        sliceGet_eq_spec w h 22 (by omega) (by omega)]
    norm_num [specSlice, hno1, hno2, hno3, hno4]
    simp [getMergedRange, mergeMin_none, mergeMin_some, mergeMax_none, mergeMax_some]
    omega
  have hRf : (getMergedRange [sliceGet w h 4, sliceGet w h 5, sliceGet w h 9,
        sliceGet w h 10, sliceGet w h 14, sliceGet w h 15, sliceGet w h 19,
        sliceGet w h 20, sliceGet w h 24, sliceGet w h 25]).xstart = specX w 3 ∧
      (getMergedRange [sliceGet w h 4, sliceGet w h 5, sliceGet w h 9,
        sliceGet w h 10, sliceGet w h 14, sliceGet w h 15, sliceGet w h 19,
        sliceGet w h 20, sliceGet w h 24, sliceGet w h 25]).xstop = specX w 5 - 1 ∧
      (getMergedRange [sliceGet w h 4, sliceGet w h 5, sliceGet w h 9,
        sliceGet w h 10, sliceGet w h 14, sliceGet w h 15, sliceGet w h 19,
        sliceGet w h 20, sliceGet w h 24, sliceGet w h 25]).ystart = 0 ∧
      h - 3 ≤ (getMergedRange [sliceGet w h 4, sliceGet w h 5, sliceGet w h 9,
        sliceGet w h 10, sliceGet w h 14, sliceGet w h 15, sliceGet w h 19,
        sliceGet w h 20, sliceGet w h 24, sliceGet w h 25]).ystop := by
    rw [sliceGet_eq_spec w h 4 (by omega) (by omega),
        sliceGet_eq_spec w h 5 (by omega) (by omega),
        sliceGet_eq_spec w h 9 (by omega) (by omega),
        sliceGet_eq_spec w h 10 (by omega) (by omega),
        sliceGet_eq_spec w h 14 (by omega) (by omega),
        sliceGet_eq_spec w h 15 (by omega) (by omega),
        sliceGet_eq_spec w h 19 (by omega) (by omega),
        sliceGet_eq_spec w h 20 (by omega) (by omega),
        sliceGet_eq_spec w h 24 (by omega) (by omega),
        sliceGet_eq_spec w h 25 (by omega) (by omega)]
    norm_num [specSlice, hno1, hno2, hno3, hno4]
    simp [getMergedRange, mergeMin_none, mergeMin_some, mergeMax_none, mergeMax_some]
    omega
  have hTf : (getMergedRange [sliceGet w h 1, sliceGet w h 2, sliceGet w h 3,
        sliceGet w h 4, sliceGet w h 5, sliceGet w h 6, sliceGet w h 7,
        sliceGet w h 8, sliceGet w h 9, sliceGet w h 10]).xstart = 0 ∧
      (getMergedRange [sliceGet w h 1, sliceGet w h 2, sliceGet w h 3,
        sliceGet w h 4, sliceGet w h 5, sliceGet w h 6, sliceGet w h 7,
        sliceGet w h 8, sliceGet w h 9, sliceGet w h 10]).xstop = specX w 5 - 1 ∧
      (getMergedRange [sliceGet w h 1, sliceGet w h 2, sliceGet w h 3,
        sliceGet w h 4, sliceGet w h 5, sliceGet w h 6, sliceGet w h 7,
        sliceGet w h 8, sliceGet w h 9, sliceGet w h 10]).ystart = 0 ∧
      (getMergedRange [sliceGet w h 1, sliceGet w h 2, sliceGet w h 3,
        sliceGet w h 4, sliceGet w h 5, sliceGet w h 6, sliceGet w h 7,
        sliceGet w h 8, sliceGet w h 9, sliceGet w h 10]).ystop = specX h 2 - 1 := by
    rw [sliceGet_eq_spec w h 1 (by omega) (by omega),
        sliceGet_eq_spec w h 2 (by omega) (by omega),
        sliceGet_eq_spec w h 3 (by omega) (by omega),
        sliceGet_eq_spec w h 4 (by omega) (by omega),
        sliceGet_eq_spec w h 5 (by omega) (by omega),
        sliceGet_eq_spec w h 6 (by omega) (by omega),
        sliceGet_eq_spec w h 7 (by omega) (by omega),
        sliceGet_eq_spec w h 8 (by omega) (by omega),
        sliceGet_eq_spec w h 9 (by omega) (by omega),
        sliceGet_eq_spec w h 10 (by omega) (by omega)]
    norm_num [specSlice, hno1, hno2, hno3, hno4]
    simp [getMergedRange, mergeMin_none, mergeMin_some, mergeMax_none, mergeMax_some]
    omega
  have hBf : (getMergedRange [sliceGet w h 16, sliceGet w h 17, sliceGet w h 18,
        sliceGet w h 19, sliceGet w h 20, sliceGet w h 21, sliceGet w h 22,
        sliceGet w h 23, sliceGet w h 24, sliceGet w h 25]).xstart = 0 ∧
      (getMergedRange [sliceGet w h 16, sliceGet w h 17, sliceGet w h 18,
        sliceGet w h 19, sliceGet w h 20, sliceGet w h 21, sliceGet w h 22,
        sliceGet w h 23, sliceGet w h 24, sliceGet w h 25]).xstop = specX w 5 - 1 ∧
      (getMergedRange [sliceGet w h 16, sliceGet w h 17, sliceGet w h 18,
        sliceGet w h 19, sliceGet w h 20, sliceGet w h 21, sliceGet w h 22,
        sliceGet w h 23, sliceGet w h 24, sliceGet w h 25]).ystart = specX h 3 ∧
      h - 3 ≤ (getMergedRange [sliceGet w h 16, sliceGet w h 17, sliceGet w h 18,
        sliceGet w h 19, sliceGet w h 20, sliceGet w h 21, sliceGet w h 22,
        sliceGet w h 23, sliceGet w h 24, sliceGet w h 25]).ystop := by
    rw [sliceGet_eq_spec w h 16 (by omega) (by omega),
        sliceGet_eq_spec w h 17 (by omega) (by omega),
        sliceGet_eq_spec w h 18 (by omega) (by omega),
        sliceGet_eq_spec w h 19 (by omega) (by omega),
        sliceGet_eq_spec w h 20 (by omega) (by omega),
        sliceGet_eq_spec w h 21 (by omega) (by omega),
        sliceGet_eq_spec w h 22 (by omega) (by omega),
        sliceGet_eq_spec w h 23 (by omega) (by omega),
        sliceGet_eq_spec w h 24 (by omega) (by omega),
        sliceGet_eq_spec w h 25 (by omega) (by omega)]
    norm_num [specSlice, hno1, hno2, hno3, hno4]
    simp [getMergedRange, mergeMin_none, mergeMin_some, mergeMax_none, mergeMax_some]
    omega
  obtain ⟨hl1, hl2, hl3, hl4⟩ := hLf
  obtain ⟨hr1, hr2, hr3, hr4⟩ := hRf
  obtain ⟨ht1, ht2, ht3, ht4⟩ := hTf
  obtain ⟨hb1, hb2, hb3, hb4⟩ := hBf
  refine ⟨_, _, _, _, rfl, rfl, rfl, rfl, rfl, rfl, rfl, rfl,
    ?_, ?_, ?_, ?_, ?_, ?_, ?_, ?_, ?_, ?_, ?_, ?_, ?_, ?_, ?_, ?_, ?_, ?_⟩ <;>
    omega

/-- C3 counterexample: on the 1000 by 1000 surface the stored left metazone
stops at x = 489 (columns one and two only), not at 509 as the union of
columns one to three would; the point (500, 0) lies at x = 500 within the
surface but in neither left nor right, so their union does not span the
width.  Top and bottom fail alike at (0, 500). -/
theorem C3_counterexample :
    buildMeta 1000 1000 ("left") = some (MetaVal.range ⟨0,489,0,999⟩) ∧
    buildMeta 1000 1000 ("right") = some (MetaVal.range ⟨510,999,0,999⟩) ∧
    getMergedRange [sliceGet 1000 1000 1, sliceGet 1000 1000 2, sliceGet 1000 1000 3,
      sliceGet 1000 1000 6, sliceGet 1000 1000 7, sliceGet 1000 1000 8,
      sliceGet 1000 1000 11, sliceGet 1000 1000 12, sliceGet 1000 1000 13,
      sliceGet 1000 1000 16, sliceGet 1000 1000 17, sliceGet 1000 1000 18,
      sliceGet 1000 1000 21, sliceGet 1000 1000 22, sliceGet 1000 1000 23] =
      ⟨0,509,0,999⟩ ∧
    (489 : ℤ) ≠ 509 ∧
    is 1000 1000 ("left") 500 0 = Except.ok false ∧
    is 1000 1000 ("right") 500 0 = Except.ok false ∧
    is 1000 1000 ("top") 0 500 = Except.ok false ∧
    is 1000 1000 ("bottom") 0 500 = Except.ok false ∧
    ((0 : ℤ) ≤ 500 ∧ (500 : ℤ) ≤ 999) := by
  have hL : buildMeta 1000 1000 ("left") = some (MetaVal.range ⟨0,489,0,999⟩) := by
    have e : buildMeta 1000 1000 ("left") = some (.range (getMergedRange
        [sliceGet 1000 1000 1, sliceGet 1000 1000 2, sliceGet 1000 1000 6,
         sliceGet 1000 1000 7, sliceGet 1000 1000 11, sliceGet 1000 1000 12,
         sliceGet 1000 1000 16, sliceGet 1000 1000 17, sliceGet 1000 1000 21,
         sliceGet 1000 1000 22])) := rfl
    rw [e]; simp only [sliceGet, sliceScreen_1000]; decide
  have hR : buildMeta 1000 1000 ("right") = some (MetaVal.range ⟨510,999,0,999⟩) := by
    have e : buildMeta 1000 1000 ("right") = some (.range (getMergedRange
        [sliceGet 1000 1000 4, sliceGet 1000 1000 5, sliceGet 1000 1000 9,
         sliceGet 1000 1000 10, sliceGet 1000 1000 14, sliceGet 1000 1000 15,
         sliceGet 1000 1000 19, sliceGet 1000 1000 20, sliceGet 1000 1000 24,
         sliceGet 1000 1000 25])) := rfl
    rw [e]; simp only [sliceGet, sliceScreen_1000]; decide
  have hT : buildMeta 1000 1000 ("top") = some (MetaVal.range ⟨0,999,0,489⟩) := by
    have e : buildMeta 1000 1000 ("top") = some (.range (getMergedRange
        [sliceGet 1000 1000 1, sliceGet 1000 1000 2, sliceGet 1000 1000 3,
         sliceGet 1000 1000 4, sliceGet 1000 1000 5, sliceGet 1000 1000 6,
         sliceGet 1000 1000 7, sliceGet 1000 1000 8, sliceGet 1000 1000 9,
         sliceGet 1000 1000 10])) := rfl
    rw [e]; simp only [sliceGet, sliceScreen_1000]; decide
  have hB : buildMeta 1000 1000 ("bottom") = some (MetaVal.range ⟨0,999,510,999⟩) := by
    have e : buildMeta 1000 1000 ("bottom") = some (.range (getMergedRange
        [sliceGet 1000 1000 16, sliceGet 1000 1000 17, sliceGet 1000 1000 18,
         sliceGet 1000 1000 19, sliceGet 1000 1000 20, sliceGet 1000 1000 21,
         sliceGet 1000 1000 22, sliceGet 1000 1000 23, sliceGet 1000 1000 24,
         sliceGet 1000 1000 25])) := rfl
    rw [e]; simp only [sliceGet, sliceScreen_1000]; decide
  refine ⟨hL, hR, ?_, by norm_num, ?_, ?_, ?_, ?_, by norm_num⟩
  · simp only [sliceGet, sliceScreen_1000]; decide
  · unfold is; rw [hL]
    show Except.ok (decide ((500 : ℚ) ≥ ((0 : ℤ) : ℚ) ∧ (500 : ℚ) ≤ ((489 : ℤ) : ℚ) ∧
      (0 : ℚ) ≥ ((0 : ℤ) : ℚ) ∧ (0 : ℚ) ≤ ((999 : ℤ) : ℚ))) = Except.ok false
    rw [decide_eq_false (by norm_num)]
  · unfold is; rw [hR]
    show Except.ok (decide ((500 : ℚ) ≥ ((510 : ℤ) : ℚ) ∧ (500 : ℚ) ≤ ((999 : ℤ) : ℚ) ∧
      (0 : ℚ) ≥ ((0 : ℤ) : ℚ) ∧ (0 : ℚ) ≤ ((999 : ℤ) : ℚ))) = Except.ok false
    rw [decide_eq_false (by norm_num)]
  · unfold is; rw [hT]
    show Except.ok (decide ((0 : ℚ) ≥ ((0 : ℤ) : ℚ) ∧ (0 : ℚ) ≤ ((999 : ℤ) : ℚ) ∧
      (500 : ℚ) ≥ ((0 : ℤ) : ℚ) ∧ (500 : ℚ) ≤ ((489 : ℤ) : ℚ))) = Except.ok false
    rw [decide_eq_false (by norm_num)]
  · unfold is; rw [hB]
    show Except.ok (decide ((0 : ℚ) ≥ ((0 : ℤ) : ℚ) ∧ (0 : ℚ) ≤ ((999 : ℤ) : ℚ) ∧
      (500 : ℚ) ≥ ((510 : ℤ) : ℚ) ∧ (500 : ℚ) ≤ ((999 : ℤ) : ℚ))) = Except.ok false
    rw [decide_eq_false (by norm_num)]

/-- C3 witness: the amended composition and span property instantiated on
the 1000 by 1000 surface. -/
theorem C3_composition_witness : (100 : ℤ) ≤ 1000 ∧ C3Spec 1000 1000 :=
  ⟨by norm_num, C3_composition 1000 1000 (by norm_num) (by norm_num)⟩
